import Mathlib

/-!
A shallow embedding of the LMS `Simulator` class
(`tensorflow_large_model_support/simulator.py`) and proofs about it.

The simulator walks the topological levels of a computation graph, keeping a
reference-counted memory ledger (`_mem`, `_ref_counts`, `_used_mem`,
`_mem_traces`) and deciding which produced tensors to swap out and when to
materialize the corresponding swap-in copies.

Modelling conventions:
* Tensor and op names are `List Nat`; the string separator `"_"` used by the
  source when building synthetic swap-in names is the element `0`.
* The graph-analysis collaborator (`self._lms`) is not part of the simulator
  source; following the spec, its query surface (levels, per-op level,
  distance, earliest-op selection, grouping, exclusion sets) is a read-only
  `GraphView` of function fields, and tensor sizes are carried on the
  tensors themselves (`_ts_size`).
* Python dict semantics are modelled by association lists: assignment
  overwrites in place or appends at the end, iteration is insertion order.
* Python set iteration over tensors of one op is made deterministic by
  keeping the first occurrence of each name, as the spec requires a stable
  order.
* Early `return` statements of `play` are modelled by an `aborted` flag that
  short-circuits every remaining step; the `NameError` that the source can
  raise when it reads the stale `ts_size` variable before any assignment is
  modelled by a `crashed` flag that likewise stops the run.
* Fields whose name starts with `ghost` are observers only: they record
  facts about the run (allocated names and sizes, number of failed allocate
  calls, whether some allocate hit an already-resident key, whether the
  used-bytes invariant held at every trace append, number of level
  iterations) and are never read by the simulation itself.
-/

/-- Names of tensors and ops: lists of naturals, `0` playing the `"_"`
separator character of Python strings. -/
abbrev Name := List Nat

/-- Decidable contiguous-sublist test used to model Python's
`ts_name in s` substring test on names. -/
def startsL : Name → Name → Bool
  | [], _ => true
  | _ :: _, [] => false
  | a :: as, b :: bs => a == b && startsL as bs

/-- Test whether `a` occurs contiguously inside `b` (Python `a in b`). -/
def subL : Name → Name → Bool
  | a, [] => startsL a []
  | a, b :: bs => startsL a (b :: bs) || subL a bs

/-- A tensor as seen by the simulator: its name, its byte size
(`self._ts_size(ts)`), its `ts.shape.ndims` and the list of names of its
consuming ops (`ts.consumers()`, a list that may repeat an op). -/
structure Tensor where
  name : Name
  size : Nat
  ndims : Option Nat
  consumers : List Name
deriving DecidableEq

/-- An op of the graph: its name and its input/output tensors. -/
structure Op where
  name : Name
  inputs : List Tensor
  outputs : List Tensor
deriving DecidableEq

/-- The read-only query surface of the graph-analysis pass, modelled from the
spec (the `_lms` collaborator is not part of the simulator source).
`levels` gives the ops of each topological level (`_get_ops_by_level`),
`distance` the graph distance between two ops, `getLevel` an op's level,
`earliest` the earliest op among a destination group, `groupby` the grouping
function (its second argument is the opaque strategy token), and the two
exclusion sets identify ops by name. -/
structure GraphView where
  levels : List (List Op)
  distance : Name → Name → Int
  getLevel : Name → Int
  earliest : List Name → Name
  groupby : List Name → Nat → List (List Name)
  exclSrc : List Name
  exclDest : List Name

/-- The per-engine configuration fixed at construction: the graph view, the
capacity `self._max_mem` computed by `_initialize`, the `swapout_delay`
surcharge and the `plot` (diagnostic-mode) flag. -/
structure Config where
  gv : GraphView
  maxMem : Int
  swapoutDelay : Int
  plot : Bool

/-- Membership of a name in a list of names. -/
def memberN (l : List Name) (n : Name) : Bool :=
  l.any (fun x => x == n)

/-- Python dict read: first (unique) binding of `k`. -/
def dictLookup {α : Type} (l : List (Name × α)) (k : Name) : Option α :=
  (l.find? (fun p => p.1 == k)).map Prod.snd

/-- Python dict read with a default. -/
def lookupD {α : Type} (l : List (Name × α)) (k : Name) (d : α) : α :=
  (dictLookup l k).getD d

/-- Python dict assignment: overwrite in place, or append a new binding. -/
def dictSet {α : Type} (l : List (Name × α)) (k : Name) (v : α) :
    List (Name × α) :=
  match l with
  | [] => [(k, v)]
  | p :: rest => if p.1 == k then (k, v) :: rest else p :: dictSet rest k v

/-- Python `del d[k]`. -/
def dictErase {α : Type} (l : List (Name × α)) (k : Name) : List (Name × α) :=
  l.filter (fun p => !(p.1 == k))

/-- Keys of an association list are pairwise distinct. -/
def NoDupKeys {α : Type} (l : List (Name × α)) : Prop :=
  (l.map Prod.fst).Nodup

/-- Sum of the sizes of all resident entries of the memory map. -/
def sumSizes (l : List (Name × Nat)) : Int :=
  (l.map (fun p => (p.2 : Int))).sum

/-- The mutable ledger state of the engine: `_mem`, `_ref_counts`,
`_used_mem`, `_mem_traces`, plus observation-only ghost fields. -/
structure SimState where
  mem : List (Name × Nat)
  refCounts : List (Name × Int)
  usedMem : Int
  memTraces : List Int
  ghostAllocs : List (Name × Nat)
  ghostFailed : Nat
  ghostDup : Bool
  ghostInv : Bool
deriving DecidableEq

/-- The state right after `_reset`. -/
def initState : SimState :=
  { mem := [], refCounts := [], usedMem := 0, memTraces := [],
    ghostAllocs := [], ghostFailed := 0, ghostDup := false, ghostInv := true }

/-- `_reset`: every mutable ledger field is set back to its initial value,
whatever the previous state was. -/
def resetSim (_prior : SimState) : SimState := initState

/-- The state change shared by both branches of `_allocate` that reach the
allocation code (lines 235-238 of the source): insert the entry, set its
reference count to `lifetime`, add the size to `_used_mem` and append a
trace sample.  Ghost fields record the allocation, whether the key was
already resident, and whether `used == sum of sizes` holds after. -/
def allocInsert (st : SimState) (n : Name) (s : Nat) (lt : Int) : SimState :=
  let mem' := dictSet st.mem n s
  let used' := st.usedMem + (s : Int)
  { st with
    mem := mem'
    refCounts := dictSet st.refCounts n lt
    usedMem := used'
    memTraces := st.memTraces ++ [used']
    ghostAllocs := st.ghostAllocs ++ [(n, s)]
    ghostDup := st.ghostDup || (dictLookup st.mem n).isSome
    ghostInv := st.ghostInv && (used' == sumSizes mem') }

/-- `_allocate(ts_name, ts_size, lifetime)`: fails when
`ts_size >= _max_mem - _used_mem`; in strict mode a failure returns at once
without touching the ledger, otherwise (success, or failure in diagnostic
mode) the entry is inserted unconditionally. -/
def allocate (cfg : Config) (st : SimState) (n : Name) (s : Nat) (lt : Int) :
    Bool × SimState :=
  if (s : Int) ≥ cfg.maxMem - st.usedMem then
    let st1 := { st with ghostFailed := st.ghostFailed + 1 }
    if cfg.plot then (false, allocInsert st1 n s lt) else (false, st1)
  else (true, allocInsert st n s lt)

/-- `_release(ts_name)`: remove the entry and its reference count, subtract
its size from `_used_mem`, append a trace sample. -/
def release (st : SimState) (n : Name) : SimState :=
  let sz := lookupD st.mem n 0
  let mem' := dictErase st.mem n
  let used' := st.usedMem - (sz : Int)
  { st with
    mem := mem'
    refCounts := dictErase st.refCounts n
    usedMem := used'
    memTraces := st.memTraces ++ [used']
    ghostInv := st.ghostInv && (used' == sumSizes mem') }

/-- `_gc()`: snapshot the keys whose reference count is zero, then release
each of them. -/
def gc (st : SimState) : SimState :=
  (((st.refCounts.filter (fun p => p.2 == 0)).map Prod.fst)).foldl release st

/-- `_is_swapin_tensor(ts_name, op_name)`: scan `_mem` in insertion order for
a resident name containing both `ts_name` and `op_name` as substrings. -/
def isSwapinTensor (mem : List (Name × Nat)) (tsName opName : Name) :
    Bool × Name :=
  match mem.find? (fun p => subL tsName p.1 && subL opName p.1) with
  | some p => (true, p.1)
  | none => (false, tsName)

/-- Add `d` to the reference count of `k` (a no-op when `k` is absent; the
source would raise `KeyError` there, a situation its call sites avoid). -/
def refAdd (rc : List (Name × Int)) (k : Name) (d : Int) : List (Name × Int) :=
  rc.map (fun p => if p.1 == k then (p.1, p.2 + d) else p)

/-- The `simulate execution` loop of `play` (lines 160-165): each input
tensor resolves through `_is_swapin_tensor` and the resolved key's reference
count is decremented unconditionally. -/
def consumeInputs (mem : List (Name × Nat)) (rc : List (Name × Int))
    (opName : Name) (ins : List Tensor) : List (Name × Int) :=
  ins.foldl (fun rc2 ts => refAdd rc2 (isSwapinTensor mem ts.name opName).2 (-1)) rc

/-- The swap-out refresh loop of `play` (lines 167-170): every swapped-out
tensor that is still resident with positive count is decremented once. -/
def swapoutDecrements (mem : List (Name × Nat)) (rc : List (Name × Int))
    (swapouts : List Name) : List (Name × Int) :=
  rc.map (fun p =>
    if memberN swapouts p.1 && (dictLookup mem p.1).isSome && decide (0 < p.2)
    then (p.1, p.2 - 1) else p)

/-- Python `set(op.inputs)` / `set(op.outputs)` with a stable order: keep the
first occurrence of each tensor name. -/
def dedupTensors (l : List Tensor) : List Tensor :=
  l.foldl (fun acc ts =>
    if acc.any (fun x => x.name == ts.name) then acc else acc ++ [ts]) []

/-- Deduplicate a list of names keeping first occurrences (Python building a
set of consumer ops). -/
def dedupNames (l : List Name) : List Name :=
  l.foldl (fun acc n => if memberN acc n then acc else acc ++ [n]) []

/-- The destination set of a produced tensor (lines 184-187): consumers at
graph distance greater than `threshold`, minus the excluded destinations. -/
def destsOf (cfg : Config) (th : Int) (opName : Name) (ts : Tensor) :
    List Name :=
  (dedupNames ts.consumers).filter (fun d =>
    decide (th < cfg.gv.distance opName d) && !(memberN cfg.gv.exclDest d))

/-- The synthetic swap-in name of line 199:
`ts_name + "_" + "_".join(op names of the group)`. -/
def synthName (tsName : Name) (grp : List Name) : Name :=
  tsName ++ [0] ++ List.intercalate [0] grp

/-- A scheduled swap-in descriptor `(name, size, lifetime)`. -/
abbrev SchedEntry := Name × Nat × Nat

/-- The `swapins` dictionary: target level to the set of descriptors
scheduled there, in insertion order. -/
abbrev SwapMap := List (Int × List SchedEntry)

/-- Read `swapins[l]`, the empty set when the key is absent. -/
def lookupSwap (w : SwapMap) (lvl : Int) : List SchedEntry :=
  ((w.find? (fun p => p.1 == lvl)).map Prod.snd).getD []

/-- `swapins[lvl] |= {e}` (creating the binding when absent). -/
def swapAdd (w : SwapMap) (lvl : Int) (e : SchedEntry) : SwapMap :=
  match w with
  | [] => [(lvl, [e])]
  | p :: rest =>
    if p.1 == lvl then
      (p.1, if p.2.any (fun x => x == e) then p.2 else p.2 ++ [e]) :: rest
    else p :: swapAdd rest lvl e

/-- The state threaded through one invocation of `play`: the ledger, the
`swapouts` set, the `passed` flag, the last value of the Python local
variable `ts_size` (`none` before its first assignment), the early-return
and crash flags, and the ghost count of level iterations. -/
structure LoopState where
  st : SimState
  swapouts : List Name
  passed : Bool
  tsv : Option Nat
  aborted : Bool
  crashed : Bool
  ghostLevels : Nat

/-- The common pattern around every `_allocate` call in `play`: on failure
set `passed = False` and, in strict mode, return (modelled by `aborted`). -/
def allocStep (cfg : Config) (ls : LoopState) (n : Name) (s : Nat) (lt : Int) :
    LoopState :=
  let r := allocate cfg ls.st n s lt
  if r.1 then { ls with st := r.2 }
  else { ls with st := r.2, passed := false, aborted := ls.aborted || !cfg.plot }

/-- Lines 117-125: allocate every swap-in descriptor scheduled for the level;
each iteration first rebinds the Python locals (in particular `ts_size`). -/
def materializeSwapins (cfg : Config) (entries : List SchedEntry)
    (ls : LoopState) : LoopState :=
  entries.foldl (fun ls2 e =>
    if ls2.aborted || ls2.crashed then ls2
    else allocStep cfg { ls2 with tsv := some e.2.1 } e.1 e.2.1 (e.2.2 : Int)) ls

/-- Lines 132-146: allocate every input that is neither recognized as a
swap-in landing point nor already resident.  The size passed to `_allocate`
is the stale local variable `ts_size` (reading it before any assignment
raises `NameError`, modelled by `crashed`); the lifetime is the current
tensor's consumer count. -/
def allocInputs (cfg : Config) (opName : Name) (ls : LoopState)
    (ins : List Tensor) : LoopState :=
  ins.foldl (fun ls2 ts =>
    if ls2.aborted || ls2.crashed then ls2
    else if (isSwapinTensor ls2.st.mem ts.name opName).1 then ls2
    else if (dictLookup ls2.st.mem ts.name).isSome then ls2
    else
      match ls2.tsv with
      | none => { ls2 with crashed := true }
      | some sz => allocStep cfg ls2 ts.name sz (ts.consumers.length : Int)) ls

/-- Lines 148-158: allocate every output that has at least one consumer,
sized by the tensor itself and with lifetime its consumer count. -/
def allocOutputs (cfg : Config) (ls : LoopState) (outs : List Tensor) :
    LoopState :=
  outs.foldl (fun ls2 ts =>
    if ls2.aborted || ls2.crashed then ls2
    else if ts.consumers.length == 0 then ls2
    else allocStep cfg ls2 ts.name ts.size (ts.consumers.length : Int)) ls

/-- Lines 178-207 for one output tensor: skip rank `<= 1` (or unknown rank)
tensors; otherwise rebind `ts_size`, compute the destination set, and if it
is non-empty update the reference count (`-= len(dest_ops)` then
`+= swapout_delay`), record the tensor in `swapouts`, and emit one scheduled
descriptor per destination group, keyed by
`getLevel (earliest group) - ahead`. -/
def swapOutTensor (cfg : Config) (th a : Int) (g : Nat) (opName : Name)
    (acc : LoopState × List (Int × SchedEntry)) (ts : Tensor) :
    LoopState × List (Int × SchedEntry) :=
  let ls := acc.1
  let scheds := acc.2
  if ts.ndims.getD 0 ≤ 1 then acc
  else
    let ls1 := { ls with tsv := some ts.size }
    let dests := destsOf cfg th opName ts
    if dests.isEmpty then (ls1, scheds)
    else
      let rc1 := refAdd ls1.st.refCounts ts.name (-(dests.length : Int))
      let rc2 := refAdd rc1 ts.name cfg.swapoutDelay
      let ls2 := { ls1 with
        st := { ls1.st with refCounts := rc2 }
        swapouts := if memberN ls1.swapouts ts.name then ls1.swapouts
                    else ls1.swapouts ++ [ts.name] }
      (ls2, scheds ++ (cfg.gv.groupby dests g).map (fun grp =>
        (cfg.gv.getLevel (cfg.gv.earliest grp) - a,
         (synthName ts.name grp, ts.size, grp.length))))

/-- Lines 127-173 for one op: input allocations, output allocations, input
consumption, swap-out refresh decrements, garbage collection. -/
def execOpPre (cfg : Config) (op : Op) (ls : LoopState) : LoopState :=
  let ins := dedupTensors op.inputs
  let ls1 := allocInputs cfg op.name ls ins
  if ls1.aborted || ls1.crashed then ls1
  else
    let ls2 := allocOutputs cfg ls1 (dedupTensors op.outputs)
    if ls2.aborted || ls2.crashed then ls2
    else
      let ls3 := { ls2 with st := { ls2.st with
        refCounts := consumeInputs ls2.st.mem ls2.st.refCounts op.name ins } }
      let ls4 := { ls3 with st := { ls3.st with
        refCounts := swapoutDecrements ls3.st.mem ls3.st.refCounts ls3.swapouts } }
      { ls4 with st := gc ls4.st }

/-- One op of a level (lines 127-207): the lifecycle phases, then, unless
the op is an excluded swap source, the swap-out decision for each output. -/
def execOp (cfg : Config) (th a : Int) (g : Nat)
    (acc : LoopState × List (Int × SchedEntry)) (op : Op) :
    LoopState × List (Int × SchedEntry) :=
  let ls := acc.1
  if ls.aborted || ls.crashed then acc
  else
    let ls1 := execOpPre cfg op ls
    if ls1.aborted || ls1.crashed then (ls1, acc.2)
    else if memberN cfg.gv.exclSrc op.name then (ls1, acc.2)
    else (dedupTensors op.outputs).foldl (swapOutTensor cfg th a g op.name)
      (ls1, acc.2)

/-- One level `k` of `play` (lines 110-207): garbage-collect, materialize the
descriptors scheduled for `k`, run every op of the level, and merge the
newly scheduled descriptors into `swapins`.  Scheduling a descriptor inline
(as the source does) and merging the collected descriptors in order at the
end of the level produce the same `swapins` dictionary, because the ops of a
level never read it. -/
def simLevel (cfg : Config) (th a : Int) (g : Nat)
    (acc : SwapMap × LoopState) (k : Nat) : SwapMap × LoopState :=
  let w := acc.1
  let ls := acc.2
  if ls.aborted || ls.crashed then acc
  else
    let ls0 := { ls with ghostLevels := ls.ghostLevels + 1, st := gc ls.st }
    let ls1 := materializeSwapins cfg (lookupSwap w (k : Int)) ls0
    if ls1.aborted || ls1.crashed then (w, ls1)
    else
      let pr := (cfg.gv.levels.getD k []).foldl (execOp cfg th a g) (ls1, [])
      (pr.2.foldl (fun w2 p => swapAdd w2 p.1 p.2) w, pr.1)

/-- What one invocation of `play` yields: its return value `passed`, the
final ledger (trace included), the `swapouts` set whose size is logged, and
the control observations. -/
structure PlayResult where
  passed : Bool
  st : SimState
  swapouts : List Name
  aborted : Bool
  crashed : Bool
  ghostLevels : Nat

/-- The loop state right after `_reset` at the top of `play`. -/
def initLoop : LoopState :=
  { st := initState, swapouts := [], passed := true, tsv := none,
    aborted := false, crashed := false, ghostLevels := 0 }

/-- `play(threshold, ahead, groupby)`: reset the ledger, then walk every
topological level in order. -/
def play (cfg : Config) (prior : SimState) (th a : Int) (g : Nat) :
    PlayResult :=
  let st0 := resetSim prior
  let r := (List.range cfg.gv.levels.length).foldl (simLevel cfg th a g)
    ([], { initLoop with st := st0 })
  { passed := r.2.passed, st := r.2.st, swapouts := r.2.swapouts,
    aborted := r.2.aborted, crashed := r.2.crashed,
    ghostLevels := r.2.ghostLevels }

/-- Tensor of the `C1` run: rank 2, size 5, one consumer (op `[2]`). -/
def t1 : Tensor := { name := [1], size := 5, ndims := some 2, consumers := [[2]] }

/-- Producer op of the `C1` run. -/
def opP1 : Op := { name := [9], inputs := [], outputs := [t1] }

/-- Consumer op of the `C1` run. -/
def opX1 : Op := { name := [2], inputs := [t1], outputs := [] }

/-- Engine of the `C1` run: two levels, the consumer at level 1; the
swap-in target level is `1 - ahead`. -/
def cfg1 : Config :=
  { gv :=
      { levels := [[opP1], [opX1]]
        distance := fun _ _ => 5
        getLevel := fun _ => 1
        earliest := fun grp => grp.headD []
        groupby := fun d _ => [d]
        exclSrc := []
        exclDest := [] }
    maxMem := 1000, swapoutDelay := 1, plot := false }


/-- Tensor of the `C2` run: three consumers whose names make two destination
groups produce the same synthetic swap-in name. -/
def t2 : Tensor :=
  { name := [1], size := 5, ndims := some 2, consumers := [[2], [3], [2, 0, 3]] }

/-- Producer op of the `C2` run. -/
def opP2 : Op := { name := [9], inputs := [], outputs := [t2] }

/-- First consumer of the `C2` run. -/
def opX2 : Op := { name := [2], inputs := [t2], outputs := [] }

/-- Second consumer of the `C2` run. -/
def opY2 : Op := { name := [3], inputs := [t2], outputs := [] }

/-- Third consumer of the `C2` run; its op name is the join of the other two
consumers' names, so its singleton group collides with their group. -/
def opZ2 : Op := { name := [2, 0, 3], inputs := [t2], outputs := [] }

/-- Engine of the `C2` run: the grouping function partitions the three
destinations into `[[2],[3]]` and `[[2,0,3]]`, two groups with the same
synthetic name `[1,0,2,0,3]`. -/
def cfg2 : Config :=
  { gv :=
      { levels := [[opP2], [], [opX2, opY2, opZ2]]
        distance := fun _ _ => 5
        getLevel := fun _ => 2
        earliest := fun grp => grp.headD []
        groupby := fun _ _ => [[[2], [3]], [[2, 0, 3]]]
        exclSrc := []
        exclDest := [] }
    maxMem := 1000, swapoutDelay := 1, plot := false }


/-- Swapped-out tensor of the `C6` run. -/
def t6 : Tensor := { name := [1], size := 5, ndims := some 2, consumers := [[2]] }

/-- Second input of the consumer in the `C6` run: its name `[1,0]` is a
substring of the synthetic swap-in name `[1,0,2]`, so the substring-based
resolution sends both inputs to the same swap-in entry. -/
def u6 : Tensor := { name := [1, 0], size := 3, ndims := some 1, consumers := [[2]] }

/-- Producer of `t6`. -/
def opP6 : Op := { name := [9], inputs := [], outputs := [t6] }

/-- Producer of `u6`. -/
def opQ6 : Op := { name := [7], inputs := [], outputs := [u6] }

/-- Consumer op of the `C6` run, consuming both `t6` and `u6`. -/
def opX6 : Op := { name := [2], inputs := [t6, u6], outputs := [] }

/-- Engine of the `C6` run. -/
def cfg6 : Config :=
  { gv :=
      { levels := [[opP6, opQ6], [], [opX6]]
        distance := fun _ _ => 5
        getLevel := fun _ => 2
        earliest := fun grp => grp.headD []
        groupby := fun d _ => [d]
        exclSrc := []
        exclDest := [] }
    maxMem := 1000, swapoutDelay := 1, plot := false }


/-- Input tensor of the `C7` run whose own size is 7. -/
def u7 : Tensor := { name := [4], size := 7, ndims := some 2, consumers := [[6]] }

/-- Other tensor of the `C7` run, size 5; the swap-out decision for it is the
last binding of the Python local `ts_size` before the faulty read. -/
def t7 : Tensor := { name := [1], size := 5, ndims := some 2, consumers := [[6]] }

/-- Producer of `u7`. -/
def opR7 : Op := { name := [8], inputs := [], outputs := [u7] }

/-- Producer of `t7`. -/
def opP7 : Op := { name := [9], inputs := [], outputs := [t7] }

/-- Consumer op of the `C7` run. -/
def opQ7 : Op := { name := [6], inputs := [u7, t7], outputs := [] }

/-- Engine of the `C7` run: a negative `ahead` pushes both swap-in target
levels past the last level, so the consumer finds its inputs not resident
and `play` re-allocates `u7` with the stale `ts_size`. -/
def cfg7 : Config :=
  { gv :=
      { levels := [[opR7, opP7], [], [], [opQ7]]
        distance := fun _ _ => 5
        getLevel := fun _ => 3
        earliest := fun grp => grp.headD []
        groupby := fun d _ => [d]
        exclSrc := []
        exclDest := [] }
    maxMem := 1000, swapoutDelay := 1, plot := false }


/-- C8: two successive `play` calls with identical parameters on an
unmodified engine produce identical outcomes (pass/fail, ordered memory
trace, evicted-tensor set), because `play` begins with `_reset`, which
erases every mutable ledger field regardless of its previous value. -/
theorem C8_play_idempotent (cfg : Config) (s : SimState) (th a : Int) (g : Nat) :
    play cfg (play cfg s th a g).st th a g = play cfg s th a g := rfl

/-- C3: `_allocate` returns `False` exactly when the requested size is at
least `capacity - used`; in particular a request exactly equal to the
current free bytes fails. -/
theorem C3_allocate_fail_iff (cfg : Config) (st : SimState) (n : Name)
    (s : Nat) (lt : Int) :
    ((allocate cfg st n s lt).1 = false ↔ (s : Int) ≥ cfg.maxMem - st.usedMem) ∧
    ((s : Int) = cfg.maxMem - st.usedMem → (allocate cfg st n s lt).1 = false) := by
  constructor
  · unfold allocate
    split
    · next h => simp only [true_iff]; split <;> simp [h]
    · next h => simp [h]
  · intro h
    unfold allocate
    rw [if_pos (le_of_eq h.symm)]
    split <;> rfl

/-- A strict-mode engine with capacity 10, used for boundary witnesses. -/
def cfgCap10 : Config :=
  { gv := cfg1.gv, maxMem := 10, swapoutDelay := 1, plot := false }

/-- A diagnostic-mode engine with capacity 10, used for boundary witnesses. -/
def cfgCap10p : Config :=
  { gv := cfg1.gv, maxMem := 10, swapoutDelay := 1, plot := true }

/-- Closed witness for C3 at a concrete state: free bytes are `10`, and a
request of exactly `10` fails. -/
theorem C3_allocate_fail_iff_witness :
    ((10 : Int) = cfgCap10.maxMem - initState.usedMem) ∧
    (allocate cfgCap10 initState [1] 10 1).1 = false :=
  ⟨by decide, (C3_allocate_fail_iff cfgCap10 initState [1] 10 1).2 (by decide)⟩

/-- C9: a failed `_allocate` leaves the ledger (resident map, reference
counts, used bytes, trace) untouched in strict mode, while in diagnostic
mode it inserts the entry, sets its reference count to the lifetime, adds
the full size to used bytes and appends a trace sample, exactly as a
successful call does. -/
theorem C9_failed_allocate_effects (cfg : Config) (st : SimState) (n : Name)
    (s : Nat) (lt : Int) (h : (s : Int) ≥ cfg.maxMem - st.usedMem) :
    (cfg.plot = false →
      (allocate cfg st n s lt).2.mem = st.mem ∧
      (allocate cfg st n s lt).2.refCounts = st.refCounts ∧
      (allocate cfg st n s lt).2.usedMem = st.usedMem ∧
      (allocate cfg st n s lt).2.memTraces = st.memTraces) ∧
    (cfg.plot = true →
      (allocate cfg st n s lt).2.mem = dictSet st.mem n s ∧
      (allocate cfg st n s lt).2.refCounts = dictSet st.refCounts n lt ∧
      (allocate cfg st n s lt).2.usedMem = st.usedMem + (s : Int) ∧
      (allocate cfg st n s lt).2.memTraces
        = st.memTraces ++ [st.usedMem + (s : Int)]) := by
  unfold allocate
  rw [if_pos h]
  constructor
  · intro hp; rw [hp]; simp
  · intro hp; rw [hp]; simp [allocInsert]

/-- Closed witness for C9: with capacity 10 and an 11-byte request, the
strict-mode failure leaves the trace empty and the diagnostic-mode failure
appends the over-capacity sample. -/
theorem C9_failed_allocate_effects_witness :
    ((11 : Int) ≥ cfgCap10.maxMem - initState.usedMem) ∧
    (allocate cfgCap10 initState [1] 11 1).2.memTraces = initState.memTraces ∧
    (allocate cfgCap10p initState [1] 11 1).2.memTraces
      = initState.memTraces ++ [initState.usedMem + (11 : Int)] :=
  ⟨by decide,
   ((C9_failed_allocate_effects cfgCap10 initState [1] 11 1
       (by decide)).1 rfl).2.2.2,
   ((C9_failed_allocate_effects cfgCap10p initState [1] 11 1
       (by decide)).2 rfl).2.2.2⟩

/-- A predicate preserved by every step of a fold is preserved by the fold. -/
theorem foldl_preserve {α β : Type} (P : α → Prop) (f : α → β → α)
    (h : ∀ x b, P x → P (f x b)) :
    ∀ (l : List β) (x : α), P x → P (l.foldl f x) := by
  intro l
  induction l with
  | nil => intro x hx; exact hx
  | cons b bs ih => intro x hx; exact ih _ (h x b hx)

/-- `allocStep` never changes the `swapouts` set. -/
theorem allocStep_swapouts (cfg : Config) (ls : LoopState) (n : Name)
    (s : Nat) (lt : Int) : (allocStep cfg ls n s lt).swapouts = ls.swapouts := by
  unfold allocStep
  dsimp only
  split <;> rfl

/-- The input-allocation loop never changes the `swapouts` set. -/
theorem allocInputs_swapouts (cfg : Config) (opName : Name) (ls : LoopState)
    (ins : List Tensor) : (allocInputs cfg opName ls ins).swapouts = ls.swapouts := by
  unfold allocInputs
  refine foldl_preserve (fun x => x.swapouts = ls.swapouts) _ ?_ ins ls rfl
  intro x ts hx
  dsimp only
  split
  · exact hx
  split
  · exact hx
  split
  · exact hx
  split
  · exact hx
  rw [allocStep_swapouts]
  exact hx

/-- The output-allocation loop never changes the `swapouts` set. -/
theorem allocOutputs_swapouts (cfg : Config) (ls : LoopState)
    (outs : List Tensor) : (allocOutputs cfg ls outs).swapouts = ls.swapouts := by
  unfold allocOutputs
  refine foldl_preserve (fun x => x.swapouts = ls.swapouts) _ ?_ outs ls rfl
  intro x ts hx
  dsimp only
  split
  · exact hx
  split
  · exact hx
  rw [allocStep_swapouts]
  exact hx

/-- The per-op lifecycle phases before the swap-out decision never change
the `swapouts` set. -/
theorem execOpPre_swapouts (cfg : Config) (op : Op) (ls : LoopState) :
    (execOpPre cfg op ls).swapouts = ls.swapouts := by
  unfold execOpPre
  dsimp only
  split
  · rw [allocInputs_swapouts]
  split
  · rw [allocOutputs_swapouts, allocInputs_swapouts]
  show (allocOutputs _ _ _).swapouts = _
  rw [allocOutputs_swapouts, allocInputs_swapouts]

/-- Unfolding lemma for `dictLookup` on a cons cell. -/
theorem dictLookup_cons {α : Type} (p : Name × α) (l : List (Name × α))
    (k : Name) :
    dictLookup (p :: l) k = if p.1 = k then some p.2 else dictLookup l k := by
  by_cases h : p.1 = k
  · simp [dictLookup, List.find?_cons_of_pos, h]
  · have hb : (p.1 == k) = false := beq_eq_false_iff_ne.mpr h
    simp [dictLookup, List.find?_cons_of_neg, hb, h]

/-- `refAdd` adds `d` to the binding of `k` and nothing else. -/
theorem dictLookup_refAdd (rc : List (Name × Int)) (k : Name) (d : Int) :
    dictLookup (refAdd rc k d) k = (dictLookup rc k).map (fun c => c + d) := by
  induction rc with
  | nil => rfl
  | cons p rest ih =>
    have hstep : refAdd (p :: rest) k d
        = (if (p.1 == k) = true then (p.1, p.2 + d) else p) :: refAdd rest k d := rfl
    by_cases h : p.1 = k
    · have hb : (p.1 == k) = true := beq_iff_eq.mpr h
      simp [hstep, hb, dictLookup_cons, h]
    · have hb : (p.1 == k) = false := beq_eq_false_iff_ne.mpr h
      simp [hstep, hb, dictLookup_cons, h, ih]

/-- A name just appended to a name set is a member. -/
theorem memberN_append_self (l : List Name) (n : Name) :
    memberN (l ++ [n]) n = true := by
  simp [memberN]

/-- C4: a freshly produced output tensor is recorded as evicted by the
swap-out decision exactly when its rank is greater than 1 and the set of its
consumers at distance greater than `threshold`, minus the excluded
destinations, is non-empty (the destination set `destsOf`); when it is
evicted its reference count changes by `swapout_delay` minus the number of
destination ops; and an op in the excluded swap-source set never records
any eviction. -/
theorem C4_swapout_decision (cfg : Config) (th a : Int) (g : Nat)
    (opName : Name) (ls : LoopState) (scheds : List (Int × SchedEntry))
    (ts : Tensor) (c : Int)
    (hrc : dictLookup ls.st.refCounts ts.name = some c)
    (hsw : memberN ls.swapouts ts.name = false) :
    (memberN (swapOutTensor cfg th a g opName (ls, scheds) ts).1.swapouts ts.name = true
       ↔ (1 < ts.ndims.getD 0 ∧ destsOf cfg th opName ts ≠ [])) ∧
    ((1 < ts.ndims.getD 0 ∧ destsOf cfg th opName ts ≠ []) →
      dictLookup (swapOutTensor cfg th a g opName (ls, scheds) ts).1.st.refCounts ts.name
        = some (c - ((destsOf cfg th opName ts).length : Int) + cfg.swapoutDelay)) ∧
    (∀ (op : Op) (acc : LoopState × List (Int × SchedEntry)),
      memberN cfg.gv.exclSrc op.name = true →
      (execOp cfg th a g acc op).1.swapouts = acc.1.swapouts) := by
  refine ⟨?_, ?_, ?_⟩
  · unfold swapOutTensor
    dsimp only
    split
    · next hnd =>
      rw [hsw]
      simp only [Bool.false_eq_true, false_iff]
      intro hc
      exact absurd hc.1 (by omega)
    · next hnd =>
      split
      · next hemp =>
        rw [hsw]
        simp only [Bool.false_eq_true, false_iff]
        intro hc
        exact hc.2 (by simpa using hemp)
      · next hemp =>
        dsimp only
        rw [hsw]
        simp only [Bool.false_eq_true, if_false, memberN_append_self, true_iff]
        refine ⟨by omega, fun he => hemp (by rw [he]; rfl)⟩
  · intro hcond
    unfold swapOutTensor
    dsimp only
    rw [if_neg (by omega)]
    rw [if_neg (fun hemp => hcond.2 (by simpa using hemp))]
    dsimp only
    rw [dictLookup_refAdd, dictLookup_refAdd, hrc]
    simp only [Option.map_some']
    congr 1
  · intro op acc hexcl
    by_cases h1 : (acc.1.aborted || acc.1.crashed) = true
    · unfold execOp
      rw [if_pos h1]
    · unfold execOp
      rw [if_neg h1]
      dsimp only
      by_cases h2 : ((execOpPre cfg op acc.1).aborted
          || (execOpPre cfg op acc.1).crashed) = true
      · rw [if_pos h2]
        dsimp only
        rw [execOpPre_swapouts]
      · rw [if_neg h2, if_pos hexcl]
        dsimp only
        rw [execOpPre_swapouts]

/-- A lookup misses exactly when the key is not among the keys. -/
theorem dictLookup_eq_none_iff {α : Type} (l : List (Name × α)) (k : Name) :
    dictLookup l k = none ↔ k ∉ l.map Prod.fst := by
  induction l with
  | nil => simp [dictLookup]
  | cons p rest ih =>
    rw [dictLookup_cons]
    by_cases h : p.1 = k
    · simp [h]
    · rw [if_neg h]
      simp only [List.map_cons, List.mem_cons, not_or, ih]
      constructor
      · intro hk
        exact ⟨fun he => h he.symm, hk⟩
      · intro hk
        exact hk.2

/-- Erasing an absent key is a no-op. -/
theorem dictErase_of_lookup_none {α : Type} (l : List (Name × α)) (k : Name)
    (h : dictLookup l k = none) : dictErase l k = l := by
  induction l with
  | nil => rfl
  | cons p rest ih =>
    rw [dictLookup_cons] at h
    by_cases hk : p.1 = k
    · simp [hk] at h
    · have hb : (p.1 == k) = false := beq_eq_false_iff_ne.mpr hk
      rw [if_neg hk] at h
      simp [dictErase, List.filter_cons, hb] at ih ⊢
      exact ih h

/-- Setting an absent key appends the binding at the end. -/
theorem dictSet_of_lookup_none {α : Type} (l : List (Name × α)) (k : Name)
    (v : α) (h : dictLookup l k = none) : dictSet l k v = l ++ [(k, v)] := by
  induction l with
  | nil => rfl
  | cons p rest ih =>
    rw [dictLookup_cons] at h
    by_cases hk : p.1 = k
    · simp [hk] at h
    · have hb : (p.1 == k) = false := beq_eq_false_iff_ne.mpr hk
      rw [if_neg hk] at h
      simp only [dictSet, hb, Bool.false_eq_true, if_false, List.cons_append]
      rw [ih h]

/-- Sum of sizes over an appended singleton. -/
theorem sumSizes_append_single (l : List (Name × Nat)) (k : Name) (v : Nat) :
    sumSizes (l ++ [(k, v)]) = sumSizes l + (v : Int) := by
  simp [sumSizes]

/-- Sum of sizes over a cons cell. -/
theorem sumSizes_cons (p : Name × Nat) (l : List (Name × Nat)) :
    sumSizes (p :: l) = (p.2 : Int) + sumSizes l := by
  simp [sumSizes]

/-- The keys after a dict assignment: unchanged when the key was present,
the key appended when it was absent. -/
theorem dictSet_keys {α : Type} (l : List (Name × α)) (k : Name) (v : α) :
    (dictSet l k v).map Prod.fst =
      if (dictLookup l k).isSome then l.map Prod.fst
      else l.map Prod.fst ++ [k] := by
  induction l with
  | nil => simp [dictSet, dictLookup]
  | cons p rest ih =>
    by_cases hk : p.1 = k
    · have hb : (p.1 == k) = true := beq_iff_eq.mpr hk
      simp [dictSet, hb, dictLookup_cons, hk]
    · have hb : (p.1 == k) = false := beq_eq_false_iff_ne.mpr hk
      simp only [dictSet, hb, Bool.false_eq_true, if_false, List.map_cons,
        dictLookup_cons, hk, ih]
      split <;> simp

/-- Dict assignment preserves distinctness of keys. -/
theorem nodup_dictSet {α : Type} (l : List (Name × α)) (k : Name) (v : α)
    (h : NoDupKeys l) : NoDupKeys (dictSet l k v) := by
  unfold NoDupKeys at *
  rw [dictSet_keys]
  split
  · exact h
  · next hnone =>
    have : k ∉ l.map Prod.fst := by
      rw [← dictLookup_eq_none_iff]
      cases he : dictLookup l k
      · rfl
      · rw [he] at hnone; simp at hnone
    simp [List.nodup_append, h, this]

/-- Erasure preserves distinctness of keys. -/
theorem nodup_dictErase {α : Type} (l : List (Name × α)) (k : Name)
    (h : NoDupKeys l) : NoDupKeys (dictErase l k) := by
  unfold NoDupKeys at *
  exact (List.Sublist.map Prod.fst (List.filter_sublist l)).nodup h

/-- Erasing a key removes exactly its size from the sum when keys are
distinct. -/
theorem sumSizes_dictErase (l : List (Name × Nat)) (k : Name)
    (h : NoDupKeys l) :
    sumSizes (dictErase l k) = sumSizes l - ((lookupD l k 0 : Nat) : Int) := by
  induction l with
  | nil => simp [dictErase, sumSizes, lookupD, dictLookup]
  | cons p rest ih =>
    have hnd : NoDupKeys rest := (List.nodup_cons.mp h).2
    by_cases hk : p.1 = k
    · have hkn : k ∉ rest.map Prod.fst := hk ▸ (List.nodup_cons.mp h).1
      have hrest : dictErase rest k = rest :=
        dictErase_of_lookup_none _ _ ((dictLookup_eq_none_iff _ _).mpr hkn)
      have hb : (p.1 == k) = true := beq_iff_eq.mpr hk
      have hstep : dictErase (p :: rest) k = rest := by
        unfold dictErase at hrest ⊢
        rw [List.filter_cons, if_neg (by simp [hb])]
        exact hrest
      rw [hstep, sumSizes_cons]
      unfold lookupD
      rw [dictLookup_cons, if_pos hk]
      simp only [Option.getD_some]
      omega
    · have hb : (p.1 == k) = false := beq_eq_false_iff_ne.mpr hk
      have hstep : dictErase (p :: rest) k = p :: dictErase rest k := by
        unfold dictErase
        rw [List.filter_cons, if_pos (by simp [hb])]
      rw [hstep, sumSizes_cons, sumSizes_cons, ih hnd]
      unfold lookupD
      rw [dictLookup_cons, if_neg hk]
      omega

/-- The per-state invariant: resident keys are distinct, and unless some
allocate call has hit an already-resident key (`ghostDup`), the used-bytes
counter equals the sum of resident sizes and the invariant check passed at
every trace append so far (`ghostInv`). -/
def SInv (st : SimState) : Prop :=
  NoDupKeys st.mem ∧
  (st.ghostDup = false → st.usedMem = sumSizes st.mem ∧ st.ghostInv = true)

/-- The run invariant: the ledger invariant, `passed` is false exactly when
some allocate call failed, in strict mode the early return happens exactly
at the (then unique) failure, and in diagnostic mode there is no early
return. -/
def LInv (cfg : Config) (ls : LoopState) : Prop :=
  SInv ls.st ∧
  (ls.passed = false ↔ 0 < ls.st.ghostFailed) ∧
  (cfg.plot = false →
    ((ls.aborted = true ↔ 0 < ls.st.ghostFailed) ∧ ls.st.ghostFailed ≤ 1)) ∧
  (cfg.plot = true → ls.aborted = false)

/-- `LInv` only looks at the ledger invariant, the failure count, `passed`
and `aborted`. -/
theorem LInv_transfer (cfg : Config) (ls ls' : LoopState)
    (hst : SInv ls'.st) (hgf : ls'.st.ghostFailed = ls.st.ghostFailed)
    (hp : ls'.passed = ls.passed) (hab : ls'.aborted = ls.aborted)
    (h : LInv cfg ls) : LInv cfg ls' := by
  obtain ⟨_, h2, h3, h4⟩ := h
  refine ⟨hst, ?_, ?_, ?_⟩
  · rw [hp, hgf]; exact h2
  · intro hplot; rw [hab, hgf]; exact h3 hplot
  · intro hplot; rw [hab]; exact h4 hplot

/-- Inserting a fresh entry preserves the ledger invariant. -/
theorem SInv_allocInsert (st : SimState) (n : Name) (s : Nat) (lt : Int)
    (h : SInv st) : SInv (allocInsert st n s lt) := by
  obtain ⟨h1, h2⟩ := h
  unfold allocInsert
  dsimp only
  refine ⟨nodup_dictSet _ _ _ h1, ?_⟩
  intro hdup
  rw [Bool.or_eq_false_iff] at hdup
  obtain ⟨hused, hinv⟩ := h2 hdup.1
  have hnone : dictLookup st.mem n = none := by
    have h2s := hdup.2
    cases he : dictLookup st.mem n with
    | none => rfl
    | some v => rw [he] at h2s; simp at h2s
  have hset : dictSet st.mem n s = st.mem ++ [(n, s)] :=
    dictSet_of_lookup_none _ _ _ hnone
  rw [hset, sumSizes_append_single, ← hused, hinv]
  exact ⟨rfl, by simp⟩

/-- Releasing an entry preserves the ledger invariant. -/
theorem SInv_release (st : SimState) (n : Name) (h : SInv st) :
    SInv (release st n) := by
  obtain ⟨h1, h2⟩ := h
  unfold release
  dsimp only
  refine ⟨nodup_dictErase _ _ h1, ?_⟩
  intro hdup
  obtain ⟨hused, hinv⟩ := h2 hdup
  rw [sumSizes_dictErase _ _ h1, ← hused, hinv]
  exact ⟨rfl, by simp⟩

/-- `release` does not change the failure count. -/
theorem release_ghostFailed (st : SimState) (n : Name) :
    (release st n).ghostFailed = st.ghostFailed := rfl

/-- Garbage collection preserves the ledger invariant. -/
theorem SInv_gc (st : SimState) (h : SInv st) : SInv (gc st) := by
  unfold gc
  exact foldl_preserve SInv release (fun x b hx => SInv_release x b hx) _ st h

/-- Garbage collection does not change the failure count. -/
theorem gc_ghostFailed (st : SimState) : (gc st).ghostFailed = st.ghostFailed := by
  unfold gc
  refine foldl_preserve (fun x => x.ghostFailed = st.ghostFailed) _ ?_ _ st rfl
  intro x b hx
  rw [release_ghostFailed]
  exact hx

/-- A false disjunction of flags forces the first flag false. -/
theorem aborted_false_of_guard {a c : Bool} (h : ¬(a || c) = true) : a = false := by
  cases a
  · rfl
  · exact absurd (by simp) h

/-- Case analysis of `_allocate`: success, diagnostic-mode failure, or
strict-mode failure. -/
theorem allocate_cases (cfg : Config) (st : SimState) (n : Name) (s : Nat)
    (lt : Int) :
    ((allocate cfg st n s lt).1 = true ∧
       (allocate cfg st n s lt).2 = allocInsert st n s lt) ∨
    ((allocate cfg st n s lt).1 = false ∧ cfg.plot = true ∧
       (allocate cfg st n s lt).2
         = allocInsert { st with ghostFailed := st.ghostFailed + 1 } n s lt) ∨
    ((allocate cfg st n s lt).1 = false ∧ cfg.plot = false ∧
       (allocate cfg st n s lt).2 = { st with ghostFailed := st.ghostFailed + 1 }) := by
  unfold allocate
  dsimp only
  split
  · split
    · next hp => exact Or.inr (Or.inl ⟨rfl, hp, rfl⟩)
    · next hp => exact Or.inr (Or.inr ⟨rfl, by simpa using hp, rfl⟩)
  · exact Or.inl ⟨rfl, rfl⟩

/-- The allocate-call pattern of `play` preserves the run invariant when the
run has not aborted yet. -/
theorem LInv_allocStep (cfg : Config) (ls : LoopState) (n : Name) (s : Nat)
    (lt : Int) (h : LInv cfg ls) (hab : ls.aborted = false) :
    LInv cfg (allocStep cfg ls n s lt) := by
  obtain ⟨h1, h2, h3, h4⟩ := h
  unfold allocStep
  dsimp only
  rcases allocate_cases cfg ls.st n s lt with ⟨hr, hst⟩ | ⟨hr, hp, hst⟩ | ⟨hr, hp, hst⟩
  · rw [hr, if_pos rfl, hst]
    exact LInv_transfer cfg ls _ (SInv_allocInsert _ _ _ _ h1) rfl rfl rfl
      ⟨h1, h2, h3, h4⟩
  · rw [hr, if_neg (by simp), hst]
    refine ⟨SInv_allocInsert _ _ _ _ h1, ?_, ?_, ?_⟩
    · show false = false ↔ 0 < ls.st.ghostFailed + 1
      simp
    · intro hpf
      rw [hpf] at hp
      cases hp
    · intro _
      show (ls.aborted || !cfg.plot) = false
      rw [hp, h4 hp, Bool.not_true, Bool.or_false]
  · rw [hr, if_neg (by simp), hst]
    have hgf0 : ls.st.ghostFailed = 0 := by
      have h3s := h3 hp
      have : ¬ 0 < ls.st.ghostFailed := by
        intro hpos
        rw [(h3s.1.mpr hpos)] at hab
        cases hab
      omega
    refine ⟨h1, ?_, ?_, ?_⟩
    · show false = false ↔ 0 < ls.st.ghostFailed + 1
      simp
    · intro _
      constructor
      · show (ls.aborted || !cfg.plot) = true ↔ _
        rw [hp, hab]
        simp
      · show ls.st.ghostFailed + 1 ≤ 1
        omega
    · intro hpt
      rw [hpt] at hp
      cases hp

/-- Swap-in materialization preserves the run invariant. -/
theorem LInv_materializeSwapins (cfg : Config) (entries : List SchedEntry)
    (ls : LoopState) (h : LInv cfg ls) :
    LInv cfg (materializeSwapins cfg entries ls) := by
  unfold materializeSwapins
  refine foldl_preserve (LInv cfg) _ ?_ entries ls h
  intro x e hx
  dsimp only
  split
  · exact hx
  · next hg => exact LInv_allocStep cfg _ _ _ _ hx (aborted_false_of_guard hg)

/-- Input allocation preserves the run invariant. -/
theorem LInv_allocInputs (cfg : Config) (opName : Name) (ls : LoopState)
    (ins : List Tensor) (h : LInv cfg ls) :
    LInv cfg (allocInputs cfg opName ls ins) := by
  unfold allocInputs
  refine foldl_preserve (LInv cfg) _ ?_ ins ls h
  intro x ts hx
  dsimp only
  split
  · exact hx
  · next hg =>
    split
    · exact hx
    · split
      · exact hx
      · split
        · exact hx
        · exact LInv_allocStep cfg _ _ _ _ hx (aborted_false_of_guard hg)

/-- Output allocation preserves the run invariant. -/
theorem LInv_allocOutputs (cfg : Config) (ls : LoopState) (outs : List Tensor)
    (h : LInv cfg ls) : LInv cfg (allocOutputs cfg ls outs) := by
  unfold allocOutputs
  refine foldl_preserve (LInv cfg) _ ?_ outs ls h
  intro x ts hx
  dsimp only
  split
  · exact hx
  · next hg =>
    split
    · exact hx
    · exact LInv_allocStep cfg _ _ _ _ hx (aborted_false_of_guard hg)

/-- The pre-swap-out lifecycle phases preserve the run invariant. -/
theorem LInv_execOpPre (cfg : Config) (op : Op) (ls : LoopState)
    (h : LInv cfg ls) : LInv cfg (execOpPre cfg op ls) := by
  unfold execOpPre
  dsimp only
  have hin := LInv_allocInputs cfg op.name ls (dedupTensors op.inputs) h
  split
  · exact hin
  · have hout := LInv_allocOutputs cfg _ (dedupTensors op.outputs) hin
    split
    · exact hout
    · exact LInv_transfer cfg _ _ (SInv_gc _ hout.1) (gc_ghostFailed _) rfl rfl hout

/-- The swap-out decision preserves the run invariant. -/
theorem LInv_swapOutTensor (cfg : Config) (th a : Int) (g : Nat)
    (opName : Name) (acc : LoopState × List (Int × SchedEntry)) (ts : Tensor)
    (h : LInv cfg acc.1) : LInv cfg (swapOutTensor cfg th a g opName acc ts).1 := by
  unfold swapOutTensor
  dsimp only
  split
  · exact h
  · split
    · exact h
    · exact h

/-- One op execution preserves the run invariant. -/
theorem LInv_execOp (cfg : Config) (th a : Int) (g : Nat)
    (acc : LoopState × List (Int × SchedEntry)) (op : Op)
    (h : LInv cfg acc.1) : LInv cfg (execOp cfg th a g acc op).1 := by
  unfold execOp
  dsimp only
  split
  · exact h
  · have hpre := LInv_execOpPre cfg op acc.1 h
    split
    · exact hpre
    · split
      · exact hpre
      · refine foldl_preserve
          (fun pr : LoopState × List (Int × SchedEntry) => LInv cfg pr.1)
          _ ?_ _ _ hpre
        intro x ts hx
        exact LInv_swapOutTensor cfg th a g op.name x ts hx

/-- One level of `play` preserves the run invariant. -/
theorem LInv_simLevel (cfg : Config) (th a : Int) (g : Nat)
    (acc : SwapMap × LoopState) (k : Nat) (h : LInv cfg acc.2) :
    LInv cfg (simLevel cfg th a g acc k).2 := by
  unfold simLevel
  dsimp only
  split
  · exact h
  · have h0 : LInv cfg
        { acc.2 with
            ghostLevels := acc.2.ghostLevels + 1
            st := gc acc.2.st } :=
      LInv_transfer cfg _ _ (SInv_gc _ h.1) (gc_ghostFailed _) rfl rfl h
    have h1 := LInv_materializeSwapins cfg
      (lookupSwap acc.1 (k : Int)) _ h0
    split
    · exact h1
    · refine foldl_preserve
        (fun pr : LoopState × List (Int × SchedEntry) => LInv cfg pr.1)
        _ ?_ _ _ h1
      intro x op hx
      exact LInv_execOp cfg th a g x op hx

/-- The run invariant holds right after `_reset`. -/
theorem LInv_init (cfg : Config) : LInv cfg initLoop := by
  refine ⟨⟨List.nodup_nil, fun _ => ⟨rfl, rfl⟩⟩, ?_, ?_, fun _ => rfl⟩
  · show true = false ↔ 0 < 0
    simp
  · intro _
    refine ⟨?_, ?_⟩
    · show false = true ↔ 0 < 0
      simp
    · show (0 : Nat) ≤ 1
      omega

/-- The whole level loop preserves the run invariant. -/
theorem LInv_levelFold (cfg : Config) (th a : Int) (g : Nat) (ks : List Nat) :
    ∀ acc : SwapMap × LoopState, LInv cfg acc.2 →
      LInv cfg (ks.foldl (simLevel cfg th a g) acc).2 := by
  induction ks with
  | nil => intro acc h; exact h
  | cons k rest ih =>
    intro acc h
    exact ih _ (LInv_simLevel cfg th a g acc k h)

/-- `allocStep` never changes the level counter. -/
theorem allocStep_ghostLevels (cfg : Config) (ls : LoopState) (n : Name)
    (s : Nat) (lt : Int) : (allocStep cfg ls n s lt).ghostLevels = ls.ghostLevels := by
  unfold allocStep
  dsimp only
  split <;> rfl

/-- Swap-in materialization never changes the level counter. -/
theorem materializeSwapins_ghostLevels (cfg : Config) (entries : List SchedEntry)
    (ls : LoopState) :
    (materializeSwapins cfg entries ls).ghostLevels = ls.ghostLevels := by
  unfold materializeSwapins
  refine foldl_preserve (fun x => x.ghostLevels = ls.ghostLevels) _ ?_ entries ls rfl
  intro x e hx
  dsimp only
  split
  · exact hx
  · rw [allocStep_ghostLevels]; exact hx

/-- Input allocation never changes the level counter. -/
theorem allocInputs_ghostLevels (cfg : Config) (opName : Name) (ls : LoopState)
    (ins : List Tensor) :
    (allocInputs cfg opName ls ins).ghostLevels = ls.ghostLevels := by
  unfold allocInputs
  refine foldl_preserve (fun x => x.ghostLevels = ls.ghostLevels) _ ?_ ins ls rfl
  intro x ts hx
  dsimp only
  split
  · exact hx
  split
  · exact hx
  split
  · exact hx
  split
  · exact hx
  rw [allocStep_ghostLevels]
  exact hx

/-- Output allocation never changes the level counter. -/
theorem allocOutputs_ghostLevels (cfg : Config) (ls : LoopState)
    (outs : List Tensor) :
    (allocOutputs cfg ls outs).ghostLevels = ls.ghostLevels := by
  unfold allocOutputs
  refine foldl_preserve (fun x => x.ghostLevels = ls.ghostLevels) _ ?_ outs ls rfl
  intro x ts hx
  dsimp only
  split
  · exact hx
  split
  · exact hx
  rw [allocStep_ghostLevels]
  exact hx

/-- The pre-swap-out phases never change the level counter. -/
theorem execOpPre_ghostLevels (cfg : Config) (op : Op) (ls : LoopState) :
    (execOpPre cfg op ls).ghostLevels = ls.ghostLevels := by
  unfold execOpPre
  dsimp only
  split
  · rw [allocInputs_ghostLevels]
  split
  · rw [allocOutputs_ghostLevels, allocInputs_ghostLevels]
  show (allocOutputs _ _ _).ghostLevels = _
  rw [allocOutputs_ghostLevels, allocInputs_ghostLevels]

/-- The swap-out decision never changes the level counter. -/
theorem swapOutTensor_ghostLevels (cfg : Config) (th a : Int) (g : Nat)
    (opName : Name) (acc : LoopState × List (Int × SchedEntry)) (ts : Tensor) :
    (swapOutTensor cfg th a g opName acc ts).1.ghostLevels = acc.1.ghostLevels := by
  unfold swapOutTensor
  dsimp only
  split
  · rfl
  split <;> rfl

/-- One op execution never changes the level counter. -/
theorem execOp_ghostLevels (cfg : Config) (th a : Int) (g : Nat)
    (acc : LoopState × List (Int × SchedEntry)) (op : Op) :
    (execOp cfg th a g acc op).1.ghostLevels = acc.1.ghostLevels := by
  unfold execOp
  dsimp only
  split
  · rfl
  split
  · rw [execOpPre_ghostLevels]
  split
  · rw [execOpPre_ghostLevels]
  refine foldl_preserve
    (fun x : LoopState × List (Int × SchedEntry) =>
      x.1.ghostLevels = acc.1.ghostLevels) _ ?_ _ _ (execOpPre_ghostLevels cfg op acc.1)
  intro x ts hx
  rw [swapOutTensor_ghostLevels]
  exact hx

/-- The op loop of a level never changes the level counter. -/
theorem execOps_ghostLevels (cfg : Config) (th a : Int) (g : Nat)
    (ops : List Op) (pr : LoopState × List (Int × SchedEntry)) :
    (ops.foldl (execOp cfg th a g) pr).1.ghostLevels = pr.1.ghostLevels := by
  refine foldl_preserve
    (fun x : LoopState × List (Int × SchedEntry) =>
      x.1.ghostLevels = pr.1.ghostLevels) _ ?_ ops pr rfl
  intro x op hx
  rw [execOp_ghostLevels]
  exact hx

/-- One level increments the level counter by at most one. -/
theorem simLevel_ghostLevels_le (cfg : Config) (th a : Int) (g : Nat)
    (acc : SwapMap × LoopState) (k : Nat) :
    (simLevel cfg th a g acc k).2.ghostLevels ≤ acc.2.ghostLevels + 1 := by
  unfold simLevel
  dsimp only
  split
  · exact Nat.le_succ _
  split
  · rw [materializeSwapins_ghostLevels]
  · show ((cfg.gv.levels.getD k []).foldl (execOp cfg th a g) _).1.ghostLevels ≤ _
    rw [execOps_ghostLevels, materializeSwapins_ghostLevels]

/-- When the run is still live, one level increments the level counter by
exactly one. -/
theorem simLevel_ghostLevels_eq (cfg : Config) (th a : Int) (g : Nat)
    (acc : SwapMap × LoopState) (k : Nat)
    (h : (acc.2.aborted || acc.2.crashed) = false) :
    (simLevel cfg th a g acc k).2.ghostLevels = acc.2.ghostLevels + 1 := by
  unfold simLevel
  dsimp only
  rw [if_neg (by rw [h]; simp)]
  split
  · rw [materializeSwapins_ghostLevels]
  · show ((cfg.gv.levels.getD k []).foldl (execOp cfg th a g) _).1.ghostLevels = _
    rw [execOps_ghostLevels, materializeSwapins_ghostLevels]

/-- A crashed run stays crashed across a level. -/
theorem simLevel_crashed_mono (cfg : Config) (th a : Int) (g : Nat)
    (acc : SwapMap × LoopState) (k : Nat) (h : acc.2.crashed = true) :
    (simLevel cfg th a g acc k).2.crashed = true := by
  unfold simLevel
  dsimp only
  rw [if_pos (by rw [h]; simp)]
  exact h

/-- A crashed run stays crashed across the whole level loop. -/
theorem levelFold_crashed_mono (cfg : Config) (th a : Int) (g : Nat)
    (ks : List Nat) :
    ∀ acc : SwapMap × LoopState, acc.2.crashed = true →
      (ks.foldl (simLevel cfg th a g) acc).2.crashed = true := by
  induction ks with
  | nil => intro acc h; exact h
  | cons k rest ih =>
    intro acc h
    exact ih _ (simLevel_crashed_mono cfg th a g acc k h)

/-- The level loop performs at most one counted iteration per level. -/
theorem levelFold_ghostLevels_le (cfg : Config) (th a : Int) (g : Nat)
    (ks : List Nat) :
    ∀ acc : SwapMap × LoopState,
      (ks.foldl (simLevel cfg th a g) acc).2.ghostLevels
        ≤ acc.2.ghostLevels + ks.length := by
  induction ks with
  | nil => intro acc; simp
  | cons k rest ih =>
    intro acc
    have h1 := ih (simLevel cfg th a g acc k)
    have h2 := simLevel_ghostLevels_le cfg th a g acc k
    simp only [List.foldl_cons, List.length_cons]
    omega

/-- In diagnostic mode a live run counts every level, unless it crashes. -/
theorem levelFold_ghostLevels_diag (cfg : Config) (th a : Int) (g : Nat)
    (hplot : cfg.plot = true) (ks : List Nat) :
    ∀ acc : SwapMap × LoopState, LInv cfg acc.2 → acc.2.crashed = false →
      (ks.foldl (simLevel cfg th a g) acc).2.crashed = true ∨
      (ks.foldl (simLevel cfg th a g) acc).2.ghostLevels
        = acc.2.ghostLevels + ks.length := by
  induction ks with
  | nil => intro acc _ _; right; simp
  | cons k rest ih =>
    intro acc h hcr
    have habort : acc.2.aborted = false := h.2.2.2 hplot
    have hstep := simLevel_ghostLevels_eq cfg th a g acc k
      (by rw [habort, hcr]; rfl)
    have hL := LInv_simLevel cfg th a g acc k h
    cases hc2 : (simLevel cfg th a g acc k).2.crashed with
    | false =>
      rcases ih (simLevel cfg th a g acc k) hL hc2 with hl | hr
      · left
        simpa using hl
      · right
        simp only [List.foldl_cons, List.length_cons]
        rw [hr, hstep]
        omega
    | true =>
      left
      simp only [List.foldl_cons]
      exact levelFold_crashed_mono cfg th a g rest _ hc2

/-- C2 (amended): in any run of `play` in which no `_allocate` call targets
an already-resident key (`ghostDup = false`), the used-bytes counter equals
the sum of resident sizes at the end, and the check
`used == sum of resident sizes` held at every appended trace sample
(`ghostInv = true`). -/
theorem C2_used_equals_residency_when_fresh (cfg : Config) (prior : SimState)
    (th a : Int) (g : Nat)
    (hdup : (play cfg prior th a g).st.ghostDup = false) :
    (play cfg prior th a g).st.usedMem
        = sumSizes (play cfg prior th a g).st.mem ∧
    (play cfg prior th a g).st.ghostInv = true := by
  have h := LInv_levelFold cfg th a g (List.range cfg.gv.levels.length)
    ([], { initLoop with st := resetSim prior }) (LInv_init cfg)
  exact h.1.2 hdup

/-- C2, counterexample to the claim as stated: in the `cfg2` run two
destination groups of one swapped-out tensor produce the same synthetic
swap-in name, the second materialization overwrites the first entry while
adding its size again, and from then on (including at the final state) used
bytes differ from the sum of resident sizes. -/
theorem C2_counterexample :
    (play cfg2 initState 1 1 0).st.usedMem
      ≠ sumSizes (play cfg2 initState 1 1 0).st.mem ∧
    (play cfg2 initState 1 1 0).st.ghostInv = false := by
  constructor
  · decide
  · decide

/-- Closed witness for the amended C2 on a collision-free run. -/
theorem C2_used_equals_residency_when_fresh_witness :
    (play cfg1 initState 1 5 0).st.ghostDup = false ∧
    ((play cfg1 initState 1 5 0).st.usedMem
        = sumSizes (play cfg1 initState 1 5 0).st.mem ∧
     (play cfg1 initState 1 5 0).st.ghostInv = true) :=
  ⟨by decide, C2_used_equals_residency_when_fresh cfg1 initState 1 5 0 (by decide)⟩

/-- C5: `play` returns a failing outcome exactly when some `_allocate` call
failed during the run; in strict mode the run aborts at the (then unique)
first failure; in diagnostic mode a run that does not hit the stale-variable
crash simulates every level. -/
theorem C5_play_failure_semantics (cfg : Config) (prior : SimState)
    (th a : Int) (g : Nat) :
    ((play cfg prior th a g).passed = false
        ↔ 0 < (play cfg prior th a g).st.ghostFailed) ∧
    (cfg.plot = false →
      ((play cfg prior th a g).aborted = true
          ↔ 0 < (play cfg prior th a g).st.ghostFailed) ∧
      (play cfg prior th a g).st.ghostFailed ≤ 1) ∧
    (cfg.plot = true → (play cfg prior th a g).crashed = false →
      (play cfg prior th a g).ghostLevels = cfg.gv.levels.length) := by
  have hL := LInv_levelFold cfg th a g (List.range cfg.gv.levels.length)
    ([], { initLoop with st := resetSim prior }) (LInv_init cfg)
  refine ⟨hL.2.1, hL.2.2.1, ?_⟩
  intro hplot hcr
  rcases levelFold_ghostLevels_diag cfg th a g hplot
      (List.range cfg.gv.levels.length)
      ([], { initLoop with st := resetSim prior }) (LInv_init cfg) rfl with hl | hr
  · exact absurd hl (by rw [show (List.foldl (simLevel cfg th a g)
      ([], { initLoop with st := resetSim prior })
      (List.range cfg.gv.levels.length)).2.crashed
        = (play cfg prior th a g).crashed from rfl, hcr]; simp)
  · show (List.foldl (simLevel cfg th a g)
      ([], { initLoop with st := resetSim prior })
      (List.range cfg.gv.levels.length)).2.ghostLevels = cfg.gv.levels.length
    rw [hr]
    show initLoop.ghostLevels + (List.range cfg.gv.levels.length).length
        = cfg.gv.levels.length
    rw [List.length_range, show initLoop.ghostLevels = 0 from rfl, Nat.zero_add]

/-- Closed witness for C5: the `cfg1` run has no failed allocation, passes,
aborts nowhere, and (trivially in strict mode) its failure count is at most
one. -/
theorem C5_play_failure_semantics_witness :
    cfg1.plot = false ∧
    ((play cfg1 initState 1 5 0).aborted = true
        ↔ 0 < (play cfg1 initState 1 5 0).st.ghostFailed) ∧
    (play cfg1 initState 1 5 0).st.ghostFailed ≤ 1 :=
  ⟨rfl, (C5_play_failure_semantics cfg1 initState 1 5 0).2.1 rfl⟩

/-- C10: `play` always terminates after at most one iteration per
topological level: the number of counted level iterations is bounded by the
number of levels of the graph. -/
theorem C10_play_level_bound (cfg : Config) (prior : SimState) (th a : Int)
    (g : Nat) :
    (play cfg prior th a g).ghostLevels ≤ cfg.gv.levels.length := by
  have h := levelFold_ghostLevels_le cfg th a g
    (List.range cfg.gv.levels.length)
    ([], { initLoop with st := resetSim prior })
  have h2 : (([], { initLoop with st := resetSim prior })
        : SwapMap × LoopState).2.ghostLevels
        + (List.range cfg.gv.levels.length).length = cfg.gv.levels.length := by
    show initLoop.ghostLevels + (List.range cfg.gv.levels.length).length = _
    rw [List.length_range, show initLoop.ghostLevels = 0 from rfl, Nat.zero_add]
  rw [h2] at h
  exact h

/-- C6 (amended): the refresh decrements applied to outstanding swapped-out
tensors are guarded by a positivity test, so they never drive any reference
count negative. -/
theorem C6_swapout_decrements_guarded (mem : List (Name × Nat))
    (rc : List (Name × Int)) (swapouts : List Name)
    (h : ∀ p ∈ rc, 0 ≤ p.2) :
    ∀ p ∈ swapoutDecrements mem rc swapouts, 0 ≤ p.2 := by
  intro p hp
  unfold swapoutDecrements at hp
  rw [List.mem_map] at hp
  obtain ⟨q, hq, hqp⟩ := hp
  by_cases hcond : (memberN swapouts q.1 && (dictLookup mem q.1).isSome
      && decide (0 < q.2)) = true
  · rw [if_pos hcond] at hqp
    rw [← hqp]
    have : 0 < q.2 := by
      have := (Bool.and_eq_true _ _).mp hcond
      exact of_decide_eq_true this.2
    omega
  · rw [if_neg hcond] at hqp
    rw [← hqp]
    exact h q hq

/-- Closed witness for the amended C6: a refresh step over two resident
swapped-out tensors, one of them with count zero, keeps all counts
non-negative. -/
theorem C6_swapout_decrements_guarded_witness :
    (∀ p ∈ [(([1] : Name), (1 : Int)), ([2], 0)], 0 ≤ p.2) ∧
    (∀ p ∈ swapoutDecrements [([1], 5), ([2], 3)]
        [(([1] : Name), (1 : Int)), ([2], 0)] [[1], [2]], 0 ≤ p.2) :=
  ⟨by decide,
   C6_swapout_decrements_guarded [([1], 5), ([2], 3)]
     [([1], 1), ([2], 0)] [[1], [2]] (by decide)⟩

/-- C6, counterexample to the claim as stated: in the `cfg6` run the
unconditional input-consumption decrement resolves two different inputs of
op `[2]` to the same swap-in entry `[1,0,2]` (substring matching) and
decrements it twice from lifetime 1, leaving a resident reference count of
`-1` that is observable in the final state. -/
theorem C6_counterexample :
    dictLookup (play cfg6 initState 1 1 0).st.refCounts [1, 0, 2]
      = some (-1) := by decide

/-- C7: evaluation of the code at the failing input.  The run allocates the
not-yet-resident input `[4]` (own size 7) with size 5, the last value of the
stale `ts_size` variable, as the third allocation of the run shows. -/
theorem C7_stale_input_size_run :
    (play cfg7 initState 1 (-2) 0).st.ghostAllocs
        = [([4], 7), ([1], 5), ([4], 5)] ∧
    u7.size = 7 ∧ u7.consumers.length = 1 := by
  refine ⟨by decide, rfl, rfl⟩

/-- C1, counterexample to the claim as stated: in the `cfg1` run with
`ahead = 5` the only swap-in descriptor (`[1,0,2]`) gets target level
`1 - 5 = -4`; a swap-out decision does happen (`swapouts = [[1]]`), yet the
descriptor is never materialized at any later level: the only allocation of
the whole run is the original tensor. -/
theorem C1_counterexample :
    (play cfg1 initState 1 5 0).swapouts = [[1]] ∧
    (play cfg1 initState 1 5 0).st.ghostAllocs = [([1], 5)] ∧
    ¬ ([1, 0, 2], 5) ∈ (play cfg1 initState 1 5 0).st.ghostAllocs := by
  refine ⟨by decide, by decide, by decide⟩

/-- Unfolding lemma for `lookupSwap` on a cons cell. -/
theorem lookupSwap_cons (p : Int × List SchedEntry) (w : SwapMap) (j : Int) :
    lookupSwap (p :: w) j = if p.1 = j then p.2 else lookupSwap w j := by
  by_cases h : p.1 = j
  · simp [lookupSwap, List.find?_cons_of_pos, h]
  · have hb : (p.1 == j) = false := beq_eq_false_iff_ne.mpr h
    simp [lookupSwap, List.find?_cons_of_neg, hb, h]

/-- Reading the `swapins` dictionary after an insertion. -/
theorem lookupSwap_swapAdd (w : SwapMap) (lvl : Int) (e : SchedEntry) (j : Int) :
    lookupSwap (swapAdd w lvl e) j =
      if j = lvl then
        (if (lookupSwap w lvl).any (fun x => x == e) then lookupSwap w lvl
         else lookupSwap w lvl ++ [e])
      else lookupSwap w j := by
  induction w with
  | nil =>
    show lookupSwap [(lvl, [e])] j = _
    simp only [lookupSwap_cons]
    by_cases h : j = lvl
    · simp [h, lookupSwap]
    · have h2 : ¬ lvl = j := fun hh => h hh.symm
      simp [h, h2, lookupSwap]
  | cons p rest ih =>
    by_cases hp : p.1 = lvl
    · have hb : (p.1 == lvl) = true := beq_iff_eq.mpr hp
      have hstep : swapAdd (p :: rest) lvl e
          = (p.1, if p.2.any (fun x => x == e) then p.2 else p.2 ++ [e]) :: rest := by
        simp [swapAdd, hb]
      rw [hstep]
      simp only [lookupSwap_cons]
      by_cases hj : j = lvl
      · have hpj : p.1 = j := by rw [hp, hj]
        simp [hpj, hj, hp]
      · have hpj : ¬ p.1 = j := fun he => hj (by rw [← he, hp])
        simp [hpj, hj]
    · have hb : (p.1 == lvl) = false := beq_eq_false_iff_ne.mpr hp
      have hstep : swapAdd (p :: rest) lvl e = p :: swapAdd rest lvl e := by
        simp [swapAdd, hb]
      rw [hstep]
      simp only [lookupSwap_cons, ih]
      by_cases hj : p.1 = j
      · have hjl : ¬ j = lvl := fun he => hp (hj.trans he)
        simp [hj, hjl, hp]
      · by_cases hjl : j = lvl
        · simp [hj, hjl, hp]
        · simp [hj, hjl, hp]

/-- Two `swapins` dictionaries that agree on every key other than `t`. -/
def swapAgree (t : Int) (w1 w2 : SwapMap) : Prop :=
  ∀ j : Int, j ≠ t → lookupSwap w1 j = lookupSwap w2 j

/-- Inserting a descriptor at key `t` is invisible at every other key. -/
theorem swapAgree_swapAdd_left (t : Int) (w : SwapMap) (e : SchedEntry) :
    swapAgree t (swapAdd w t e) w := by
  intro j hj
  rw [lookupSwap_swapAdd, if_neg hj]

/-- Inserting the same descriptor on both sides preserves agreement. -/
theorem swapAgree_swapAdd (t : Int) (w1 w2 : SwapMap) (lvl : Int)
    (e : SchedEntry) (h : swapAgree t w1 w2) :
    swapAgree t (swapAdd w1 lvl e) (swapAdd w2 lvl e) := by
  intro j hj
  rw [lookupSwap_swapAdd, lookupSwap_swapAdd]
  by_cases hjl : j = lvl
  · rw [if_pos hjl, if_pos hjl, h lvl (hjl ▸ hj)]
  · rw [if_neg hjl, if_neg hjl]
    exact h j hj

/-- Merging the same scheduled descriptors on both sides preserves
agreement. -/
theorem swapAgree_foldAdd (t : Int) (scheds : List (Int × SchedEntry)) :
    ∀ (w1 w2 : SwapMap), swapAgree t w1 w2 →
      swapAgree t (scheds.foldl (fun wx p => swapAdd wx p.1 p.2) w1)
        (scheds.foldl (fun wx p => swapAdd wx p.1 p.2) w2) := by
  induction scheds with
  | nil => intro w1 w2 h; exact h
  | cons p rest ih =>
    intro w1 w2 h
    exact ih _ _ (swapAgree_swapAdd t w1 w2 p.1 p.2 h)

/-- Running one level `k ≠ t` under two `swapins` dictionaries that agree
away from `t` yields the same loop state and dictionaries that still agree
away from `t`. -/
theorem simLevel_agree (cfg : Config) (th a : Int) (g : Nat) (k : Nat)
    (t : Int) (hk : (k : Int) ≠ t) (w1 w2 : SwapMap) (ls : LoopState)
    (hw : swapAgree t w1 w2) :
    (simLevel cfg th a g (w1, ls) k).2 = (simLevel cfg th a g (w2, ls) k).2 ∧
    swapAgree t (simLevel cfg th a g (w1, ls) k).1
      (simLevel cfg th a g (w2, ls) k).1 := by
  unfold simLevel
  dsimp only
  by_cases hg : (ls.aborted || ls.crashed) = true
  · rw [if_pos hg, if_pos hg]
    exact ⟨rfl, hw⟩
  · rw [if_neg hg, if_neg hg, hw (k : Int) hk]
    generalize materializeSwapins cfg (lookupSwap w2 (k : Int))
      { ls with ghostLevels := ls.ghostLevels + 1, st := gc ls.st } = m
    by_cases hab : (m.aborted || m.crashed) = true
    · rw [if_pos hab, if_pos hab]
      exact ⟨rfl, hw⟩
    · rw [if_neg hab, if_neg hab]
      dsimp only
      exact ⟨rfl, swapAgree_foldAdd t _ w1 w2 hw⟩

/-- Running any list of levels that avoids key `t` under two agreeing
`swapins` dictionaries yields the same loop state. -/
theorem levelFold_agree (cfg : Config) (th a : Int) (g : Nat) (t : Int)
    (ks : List Nat) (hks : ∀ k ∈ ks, (k : Int) ≠ t) :
    ∀ (w1 w2 : SwapMap) (ls : LoopState), swapAgree t w1 w2 →
      (ks.foldl (simLevel cfg th a g) (w1, ls)).2
        = (ks.foldl (simLevel cfg th a g) (w2, ls)).2 := by
  induction ks with
  | nil => intro w1 w2 ls _; rfl
  | cons k rest ih =>
    intro w1 w2 ls hw
    have hk : (k : Int) ≠ t := hks k (List.mem_cons_self k rest)
    have hstep := simLevel_agree cfg th a g k t hk w1 w2 ls hw
    have h1 : simLevel cfg th a g (w1, ls) k
        = ((simLevel cfg th a g (w1, ls) k).1,
           (simLevel cfg th a g (w1, ls) k).2) := rfl
    have h2 : simLevel cfg th a g (w2, ls) k
        = ((simLevel cfg th a g (w2, ls) k).1,
           (simLevel cfg th a g (w2, ls) k).2) := rfl
    rw [List.foldl_cons, List.foldl_cons, h1, h2, hstep.1]
    exact ih (fun x hx => hks x (List.mem_cons_of_mem k hx)) _ _ _ hstep.2

/-- C1 (amended): every swap-in descriptor emitted by the swap-out decision
is keyed by `getLevel (earliest op of its destination group) - ahead` and
carries the synthetic name, the source tensor's size and the group size as
lifetime; and a descriptor inserted under a key that the remaining level
walk never visits (in particular any negative key, any key at or before the
level that scheduled it, and any key at or beyond the level count) has no
effect whatsoever on the rest of the run: it is silently dropped, never
materialized. -/
theorem C1_swapin_scheduling (cfg : Config) (th a : Int) (g : Nat) :
    (∀ (opName : Name) (acc : LoopState × List (Int × SchedEntry))
       (ts : Tensor) (p : Int × SchedEntry),
       p ∈ (swapOutTensor cfg th a g opName acc ts).2 →
       p ∈ acc.2 ∨ ∃ grp ∈ cfg.gv.groupby (destsOf cfg th opName ts) g,
         p = (cfg.gv.getLevel (cfg.gv.earliest grp) - a,
              (synthName ts.name grp, ts.size, grp.length))) ∧
    (∀ (t : Int) (e : SchedEntry) (ks : List Nat) (w : SwapMap) (ls : LoopState),
       (∀ k ∈ ks, (k : Int) ≠ t) →
       (ks.foldl (simLevel cfg th a g) (swapAdd w t e, ls)).2
         = (ks.foldl (simLevel cfg th a g) (w, ls)).2) := by
  constructor
  · intro opName acc ts p hp
    unfold swapOutTensor at hp
    dsimp only at hp
    split at hp
    · exact Or.inl hp
    · split at hp
      · exact Or.inl hp
      · dsimp only at hp
        rw [List.mem_append] at hp
        rcases hp with hp | hp
        · exact Or.inl hp
        · right
          rw [List.mem_map] at hp
          obtain ⟨grp, hgrp, hmap⟩ := hp
          exact ⟨grp, hgrp, hmap.symm⟩
  · intro t e ks w ls hks
    exact levelFold_agree cfg th a g t ks hks (swapAdd w t e) w ls
      (swapAgree_swapAdd_left t w e)

/-- Closed witness for the amended C1: in the `cfg1` engine, inserting the
descriptor `([1,0,2], 5, 1)` under the already-passed key `-4` leaves the
run over the remaining level exactly as if it had never been scheduled. -/
theorem C1_swapin_scheduling_witness :
    (∀ k ∈ [1], ((k : Nat) : Int) ≠ -4) ∧
    ([1].foldl (simLevel cfg1 1 5 0)
        (swapAdd [] (-4) ([1, 0, 2], 5, 1), initLoop)).2
      = ([1].foldl (simLevel cfg1 1 5 0) ([], initLoop)).2 :=
  ⟨by decide,
   (C1_swapin_scheduling cfg1 1 5 0).2 (-4) ([1, 0, 2], 5, 1) [1] [] initLoop
     (by decide)⟩

/-- Loop state for the C4 witness: tensor `[1]` resident with reference
count 1 and nothing swapped out yet. -/
def ls4w : LoopState :=
  { initLoop with st := { initState with refCounts := [([1], 1)] } }

/-- Closed witness for C4 on the `cfg1` engine: tensor `t1` (rank 2, one
consumer beyond the threshold) is recorded as evicted and its reference
count becomes `1 - 1 + swapout_delay = 1`. -/
theorem C4_swapout_decision_witness :
    dictLookup ls4w.st.refCounts t1.name = some 1 ∧
    memberN ls4w.swapouts t1.name = false ∧
    memberN (swapOutTensor cfg1 1 5 0 [9] (ls4w, []) t1).1.swapouts t1.name
      = true ∧
    dictLookup (swapOutTensor cfg1 1 5 0 [9] (ls4w, []) t1).1.st.refCounts
        t1.name
      = some (1 - ((destsOf cfg1 1 [9] t1).length : Int) + cfg1.swapoutDelay) :=
  ⟨by decide, by decide,
   ((C4_swapout_decision cfg1 1 5 0 [9] ls4w [] t1 1 (by decide)
       (by decide)).1).mpr (by decide),
   (C4_swapout_decision cfg1 1 5 0 [9] ls4w [] t1 1 (by decide)
       (by decide)).2.1 (by decide)⟩
